import Mathlib

/-!
Verification of `xscen/utils.py` against its natural-language specification.

Shallow embedding conventions:
* xarray Datasets over two stacked dimensions are modelled by `Dataset2`
  (coordinate arrays plus a row-major value grid); machine floats are
  modelled by `Int` values with `Option Int` playing the role of
  "value or NaN" after unstacking.
* Python dicts of string attributes are ordered association lists
  `List (String × String)`; `List.lookup` is dict lookup (keys unique),
  `dictSet`/`dictPop` follow Python dict update/pop ordering semantics.
* Functions of the module that merely delegate to external collaborators
  (xclim unit conversion, calendar conversion, file I/O, id generation)
  take those collaborators as explicit function arguments.
-/

/- ===================== Definitions ===================== -/

/-- Embeds `minimum_calendar` (utils.py lines 36-51): returns "360_day" if present,
else "noleap" if "noleap" or "365_day" present, else "all_leap" when every
argument is "all_leap" or "366_day", else "standard". -/
def minimum_calendar (calendars : List String) : String :=
  if calendars.contains "360_day" then "360_day"
  else if calendars.contains "noleap" || calendars.contains "365_day" then "noleap"
  else if calendars.all (fun c => c == "all_leap" || c == "366_day") then "all_leap"
  else "standard"

/-- Rank of a calendar name in the hierarchy 360_day < noleap < standard < all_leap,
with the aliases 365_day (= noleap) and 366_day (= all_leap). -/
def calRank (c : String) : Nat :=
  if c = "360_day" then 0
  else if c = "noleap" ∨ c = "365_day" then 1
  else if c = "all_leap" ∨ c = "366_day" then 3
  else 2

/-- Canonical calendar name of each rank of the hierarchy. -/
def calOfRank (r : Nat) : String :=
  if r = 0 then "360_day" else if r = 1 then "noleap" else if r = 2 then "standard"
  else "all_leap"

/-- The calendar names (and aliases) covered by the hierarchy of the spec. -/
def knownCalendars : List String :=
  ["360_day", "noleap", "365_day", "standard", "all_leap", "366_day"]

/-- A pint unit as seen by `change_units` (utils.py lines 410-431): the unit
string (as shown in the error message) and `dimensionality.get("[time]")`,
which is `none` when the unit has no time dimension. Structure equality models
pint unit equality as used by the `units2pint(...) != units2pint(...)` guard. -/
structure PintUnit where
  name : String
  timeExp : Option Int
  deriving DecidableEq

/-- Outcome of the per-variable body of `change_units`. -/
inductive ConvAction where
  | skip
  | direct
  | amount2rate
  | rate2amount
  | raiseNotImplemented (msg : String)
  | raiseTypeError
  deriving DecidableEq

/-- The NotImplementedError message of `change_units` (utils.py lines 429-431):
it interpolates the source and target unit strings only. -/
def change_units_msg (srcUnits tgtUnits : String) : String :=
  "No known transformation between " ++ srcUnits ++ " and " ++ tgtUnits ++
    " (temporal dimensionality mismatch)."

/-- Embeds the loop body of `change_units` (utils.py lines 412-431) for one
requested variable `v` present in the dataset: skip when the pint units are
equal, otherwise dispatch on the time exponents; `none - some`/`some - none`
subtraction is a Python TypeError. `v` is in scope exactly as in the source:
the error message does not interpolate it. -/
def change_units_var (v : String) (src tgt : PintUnit) : ConvAction :=
  if src = tgt then .skip
  else if src.timeExp = tgt.timeExp then .direct
  else
    match src.timeExp, tgt.timeExp with
    | some a, some b =>
      if a - b = 1 then .amount2rate
      else if a - b = -1 then .rate2amount
      else .raiseNotImplemented (change_units_msg src.name tgt.name)
    | _, _ => .raiseTypeError

/-- Python substring test on character lists: `needle in hay`. -/
def containsAux (needle : List Char) (hay : List Char) : Bool :=
  if needle.isPrefixOf hay then true
  else
    match hay with
    | [] => false
    | _ :: t => containsAux needle t

/-- Python substring test `needle in hay` on strings. -/
def strContains (hay needle : String) : Bool :=
  containsAux needle.toList hay.toList

/-- A Python value passed as the `default` argument of a controlled-vocabulary
lookup: either a string or some other (non-string) object. -/
inductive PyVal where
  | pstr (s : String)
  | pother (n : Nat)
  deriving DecidableEq

/-- Result of calling a controlled-vocabulary lookup: a returned value or a
raised KeyError carrying the offending key. -/
inductive CVResult where
  | ret (v : PyVal)
  | keyError (k : String)
  deriving DecidableEq

/-- The matching phase of `cvfunc` (utils.py lines 357-366): first value whose
pattern fullmatches the key in regex mode (`fm` abstracts `re.fullmatch`),
plain dict lookup otherwise. -/
def cvLookup (isRegex : Bool) (fm : String → String → Bool)
    (cv : List (String × String)) (key : String) : Option String :=
  if isRegex then (cv.find? (fun p => fm p.1 key)).map (fun p => p.2)
  else cv.lookup key

/-- Embeds `cvfunc` (utils.py lines 356-372): return the mapped value when the
key matches, otherwise apply the default policy ("pass" returns the key,
"error" raises KeyError(key), anything else is returned as-is). -/
def cvfunc (isRegex : Bool) (fm : String → String → Bool)
    (cv : List (String × String)) (key : String) (dflt : PyVal) : CVResult :=
  match cvLookup isRegex fm cv key with
  | some v => .ret (.pstr v)
  | none =>
    match dflt with
    | .pstr s =>
      if s = "pass" then .ret (.pstr key)
      else if s = "error" then .keyError key
      else .ret (.pstr s)
    | .pother n => .ret (.pother n)

/-- A two-dimensional dataset: coordinate arrays of the two dimensions and the
row-major grid of values (one row per `xs` entry, one column per `ys` entry). -/
structure Dataset2 where
  xs : List Int
  ys : List Int
  data : List (List Int)

/-- Value of a 2-d boolean mask at row `i`, column `j`. -/
def maskAt (mask : List (List Bool)) (i j : Nat) : Bool :=
  (mask.getD i []).getD j false

/-- Value of a 2-d data grid at row `i`, column `j`. -/
def dataAt (d : List (List Int)) (i j : Nat) : Int :=
  (d.getD i []).getD j 0

/-- Embeds `"x".join(map(str, mask.shape))` (utils.py line 118) for a 2-d mask:
the shape is (number of rows, row width). -/
def original_shape (mask : List (List Bool)) : String :=
  String.intercalate "x" ([mask.length, (mask.headD []).length].map toString)

/-- A dataset stacked by `stack_drop_nans`: the retained points in row-major
order, each carrying its original per-dimension coordinates and value, and the
`original_shape` attribute written on the stacked coordinates. -/
structure StackedDS where
  points : List (Int × Int × Int)
  shapeAttr : String

/-- Embeds `stack_drop_nans` (utils.py lines 76-150): stack the mask dimensions
row-major, keep exactly the points where the mask is true (each point keeps its
per-dimension coordinates), and record `original_shape` on the stacked
coordinates' attributes. -/
def stack_drop_nans (ds : Dataset2) (mask : List (List Bool)) : StackedDS :=
  { points :=
      (List.range ds.xs.length).flatMap (fun i =>
        (List.range ds.ys.length).filterMap (fun j =>
          if maskAt mask i j then
            some (ds.xs.getD i 0, ds.ys.getD j 0, dataAt ds.data i j)
          else none)),
    shapeAttr := original_shape mask }

/-- Insert into a sorted duplicate-free list of integers. -/
def sortedInsertInt (x : Int) : List Int → List Int
  | [] => [x]
  | y :: ys =>
    if x = y then y :: ys
    else if x < y then x :: y :: ys
    else y :: sortedInsertInt x ys

/-- Sorted unique values of an integer list: the levels a pandas MultiIndex
derives from a coordinate array (`pd.MultiIndex.from_arrays` categorizes each
array into its sorted unique values). -/
def uniqueSortedInt (l : List Int) : List Int := l.foldr sortedInsertInt []

/-- First stacked point carrying the given pair of coordinates, if any. -/
def findPoint (pts : List (Int × Int × Int)) (x y : Int) : Option Int :=
  (pts.find? (fun p => p.1 == x && p.2.1 == y)).map (fun p => p.2.2)

/-- Embeds `unstack_fill_nan` (utils.py lines 154-228) on the default
`coords=None` path: build a MultiIndex from the per-point coordinate arrays and
unstack it — the output grid ranges over the sorted unique values of each
coordinate array, a cell holds the stacked value when the coordinate pair was
retained and the NaN fill (`none`) otherwise. -/
def unstack_fill_nan (st : StackedDS) : List (Int × List (Int × Option Int)) :=
  (uniqueSortedInt (st.points.map (fun p => p.1))).map (fun x =>
    (x, (uniqueSortedInt (st.points.map (fun p => p.2.1))).map (fun y =>
      (y, findPoint st.points x y))))

/-- Label-based access into an unstacked grid: `none` when the coordinate pair
is absent from the grid, `some v` when the cell exists with content `v`
(`v = none` being the NaN fill). -/
def gridGet (g : List (Int × List (Int × Option Int))) (x y : Int) :
    Option (Option Int) :=
  (g.lookup x).bind (fun row => row.lookup y)

/-- The month-initial letters "JFMAMJJASOND" indexed by `unstack_dates`
(utils.py line 770). -/
def monthInitials : List Char := "JFMAMJJASOND".toList

/-- Season label of `unstack_dates` for a block of `n` months starting at month
`m`: the month initials at indices (m-1), ..., (m+n-2) modulo 12
(utils.py line 773). -/
def seasonLabel (n : Nat) (m : Nat) : String :=
  String.mk ((List.range n).map (fun k => monthInitials.getD ((m - 1 + k) % 12) 'J'))

/-- Python `f"{m:02d}-01"` for a month number. -/
def mmdd (m : Nat) : String := (if m < 10 then "0" else "") ++ toString m ++ "-01"

/-- The inferred seasons dict of `unstack_dates` for ?QS/?MS frequencies
(utils.py lines 772-775): `months` is `np.unique(ds.time.dt.month)` (sorted
unique months present) and `n` the span of each season in months. -/
def seasonsFromMonths (n : Nat) (months : List Nat) : List (String × String) :=
  months.map (fun m => (mmdd m, seasonLabel n m))

/-- Lexicographic strict comparison of character lists by code point: the
ordering Python applies to strings (and hence to "MM-DD" keys and labels). -/
def lexLt : List Char → List Char → Bool
  | [], [] => false
  | [], _ :: _ => true
  | _ :: _, [] => false
  | a :: as, b :: bs =>
    if a < b then true else if b < a then false else lexLt as bs

/-- Python `a < b` on strings. -/
def strLt (a b : String) : Bool := lexLt a.toList b.toList

/-- Insert into a sorted duplicate-free list of strings. -/
def sortedInsertStr (x : String) : List String → List String
  | [] => [x]
  | y :: ys =>
    if x = y then y :: ys
    else if strLt x y then x :: y :: ys
    else y :: sortedInsertStr x ys

/-- Sorted unique values of a string list (pandas MultiIndex level order). -/
def uniqueSortedStr (l : List String) : List String := l.foldr sortedInsertStr []

/-- Embeds `dict(zip(seasons.values(), seasons.keys()))[lab]`
(utils.py line 799): the MM-DD key of a season label; when several keys carry
the same label, the last binding wins, exactly as in a Python dict built from
`zip`. Labels are always drawn from the map, so the `getD` default is inert. -/
def seasonInverted (seasons : List (String × String)) (lab : String) : String :=
  ((((seasons.filter (fun p => p.2 == lab)).map (fun p => p.1))).getLast?).getD ""

/-- The comparison `sortby` uses on the season axis: label `a` comes no later
than label `b` when `b`'s MM-DD key is not lexicographically below `a`'s. -/
def seasonKeyLe (seasons : List (String × String)) (a b : String) : Bool :=
  !(strLt (seasonInverted seasons b) (seasonInverted seasons a))

/-- Embeds the final `sortby` of `unstack_dates` (utils.py line 800): sort the
season axis by each label's MM-DD key. -/
def sortSeasonAxis (seasons : List (String × String)) (axis : List String) :
    List String :=
  List.insertionSort (fun a b => seasonKeyLe seasons a b = true) axis

/-- The season axis produced by `unstack_dates` (utils.py lines 788-800) from a
seasons dict and the "MM-DD" keys of the time coordinate: look every timestamp
up in the dict, unstack (the new axis ranges over the sorted unique labels),
then sort the axis by each label's key. -/
def unstack_dates_axis (seasons : List (String × String)) (timeKeys : List String) :
    List String :=
  sortSeasonAxis seasons
    (uniqueSortedStr (timeKeys.filterMap (fun k => seasons.lookup k)))

/-- Worker for `replaceAll`: structural recursion on a fuel counter so that the
function evaluates inside the kernel; each step consumes at least one input
character, so fuel equal to the input length never runs out. -/
def replaceAllAux (pat rep : List Char) : Nat → List Char → List Char
  | _, [] => []
  | 0, s => s
  | fuel + 1, c :: cs =>
    if 0 < pat.length ∧ pat.isPrefixOf (c :: cs) = true then
      rep ++ replaceAllAux pat rep fuel ((c :: cs).drop pat.length)
    else c :: replaceAllAux pat rep fuel cs

/-- Replace every non-overlapping occurrence of `pat` in `s`, left to right:
Python `str.replace` for a non-empty pattern. -/
def replaceAll (pat rep s : List Char) : List Char :=
  replaceAllAux pat rep s.length s

/-- Python `s.replace(pat, rep)` for the non-empty patterns used in utils.py. -/
def strReplace (s pat rep : String) : String :=
  String.mk (replaceAll pat.toList rep.toList s.toList)

/-- Python ordered-dict removal of a key. -/
def dictPop (l : List (String × String)) (k : String) : List (String × String) :=
  l.filter (fun p => !(p.1 == k))

/-- Python ordered-dict assignment: overwrite in place when the key exists,
append otherwise. -/
def dictSet (l : List (String × String)) (k v : String) : List (String × String) :=
  if l.any (fun p => p.1 == k) then
    l.map (fun p => if p.1 == k then (k, v) else p)
  else l ++ [(k, v)]

/-- Embeds the attribute-key rewrite stage of `clean_up`
(utils.py lines 640-644): iterate over a snapshot of the global attribute keys;
for each key compute `new_name` by replacing "cat:" with the caller string and,
only when `new_name` is non-empty, pop the old key and assign the value under
`new_name`. The `none` lookup branch mirrors the (unreachable for a dict's own
key list) KeyError of `pop` by leaving the dict unchanged. -/
def change_attr_prefix_step (pre : String) (acc : List (String × String))
    (k : String) : List (String × String) :=
  let newName := strReplace k "cat:" pre
  if newName ≠ "" then
    match acc.lookup k with
    | some v => dictSet (dictPop acc k) newName v
    | none => acc
  else acc

/-- The whole rewrite stage: fold the loop body over the snapshot of keys. -/
def change_attr_prefix_stage (attrs : List (String × String)) (pre : String) :
    List (String × String) :=
  (attrs.map (fun p => p.1)).foldl (change_attr_prefix_step pre) attrs

/-- The coords argument of `unstack_fill_nan`: absent, a sequence of coordinate
names, an explicit mapping of dimension name to coordinate values, or a
side-car file path. -/
inductive CoordsArg where
  | noneArg
  | listArg (names : List String)
  | dictArg (m : List (String × List Int))
  | strArg (path : String)

/-- Embeds the dims/crds selection of `unstack_fill_nan`
(utils.py lines 195-204): only a list or tuple argument selects named
coordinates (`byName`); every other argument, the dict included, falls to the
`else` branch that auto-detects the coordinates of `ds` whose sole dimension is
the stacked one (`autoCoords`). -/
def coordSource (autoCoords : List (String × List Int))
    (byName : String → List Int) (coords : CoordsArg) :
    List (String × List Int) :=
  match coords with
  | .listArg names => names.map (fun nm => (nm, byName nm))
  | _ => autoCoords

/-- Outcome of a Python attribute access step. -/
inductive PyStep (α : Type) where
  | ok (a : α)
  | attributeError (typeName attrName : String)
  deriving DecidableEq

/-- Embeds the reindex step of `unstack_fill_nan` (utils.py lines 212-223):
skipped for `None` and for list/tuple arguments; a str argument is replaced by
the opened side-car dataset whose `.coords` drive `reindex`; a dict reaches
`out.reindex(**coords.coords)` unconverted, and a plain Python dict has no
`coords` attribute, so the access raises AttributeError. -/
def reindexTargets (openDs : String → List (String × List Int))
    (coords : CoordsArg) : PyStep (Option (List (String × List Int))) :=
  match coords with
  | .noneArg => .ok none
  | .listArg _ => .ok none
  | .strArg p => .ok (some (openDs p))
  | .dictArg _ => .attributeError "dict" "coords"

/-- A dataset variable as `clean_up` sees it: its values (of an abstract array
type `V`) and its attribute dict. -/
structure VarEntry (V : Type) where
  values : V
  attrs : List (String × String)

/-- A dataset as `clean_up` sees it: named variables and global attributes. -/
structure CUDataset (V : Type) where
  vars : List (String × VarEntry V)
  attrs : List (String × String)

/-- The external collaborators `clean_up` delegates to: `change_units` applied
to a whole dataset (xclim-backed), the calendar-conversion block
(xclim `convert_calendar` plus the missing-by-var fixups), `maybe_unstack`,
array rounding, `xr.open_dataset` reduced to the attrs it yields, and
`generate_id` from the catalog module. -/
structure CleanupExternals (V : Type) where
  changeUnitsOp : List (String × String) → CUDataset V → CUDataset V
  convertCalendarOp :
    List (String × String) → Option (List (String × String)) →
      CUDataset V → CUDataset V
  maybeUnstackOp : List (String × String) → CUDataset V → CUDataset V
  roundOp : Nat → V → V
  openDsAttrsOp : List (String × String) → String → List (String × String)
  generateIdOp : CUDataset V → String

/-- Apply a function to the entry of variable `v`, when present (Python would
raise KeyError on an absent variable; the stages below are only invoked on
variables of the dataset). -/
def mapVarEntry {V : Type} (ds : CUDataset V) (v : String)
    (f : VarEntry V → VarEntry V) : CUDataset V :=
  { ds with vars := ds.vars.map (fun q => if q.1 == v then (q.1, f q.2) else q) }

/-- Embeds the rounding stage of `clean_up` (utils.py lines 570-572). -/
def round_var_stage {V : Type} (roundOp : Nat → V → V)
    (rv : List (String × Nat)) (ds : CUDataset V) : CUDataset V :=
  rv.foldl (fun acc p =>
    mapVarEntry acc p.1 (fun e => { e with values := roundOp p.2 e.values })) ds

/-- Embeds `_search` (utils.py lines 574-580): trailing "*" is substring
containment, leading "^" tests the start, otherwise exact equality. (Python
indexes `a[-1]`, so an empty pattern would raise; patterns are non-empty.) -/
def attrSearch (a b : String) : Bool :=
  if a.endsWith "*" then strContains b (a.dropRight 1)
  else if a.startsWith "^" then b.startsWith (a.drop 1)
  else a == b

/-- Embeds the deletion loop of the `attrs_to_remove` stage
(utils.py lines 612-618): drop every attribute matched by some pattern. -/
def removeMatchingAttrs (pats : List String) (attrs : List (String × String)) :
    List (String × String) :=
  attrs.filter (fun p => !(pats.any (fun a => attrSearch a p.1)))

/-- Embeds the deletion loop of the `remove_all_attrs_except` stage
(utils.py lines 621-632): keep exactly the attributes matched by some pattern. -/
def keepMatchingAttrs (pats : List String) (attrs : List (String × String)) :
    List (String × String) :=
  attrs.filter (fun p => pats.any (fun a => attrSearch a p.1))

/-- Apply a per-scope attribute transformation for each entry of a
variable-to-patterns dict, the key "global" addressing the global attrs
(utils.py lines 613-614 and 622-623). -/
def perVarAttrStage {V : Type}
    (f : List String → List (String × String) → List (String × String))
    (cfg : List (String × List String)) (ds : CUDataset V) : CUDataset V :=
  cfg.foldl (fun acc p =>
    if p.1 == "global" then { acc with attrs := f p.2 acc.attrs }
    else mapVarEntry acc p.1 (fun e => { e with attrs := f p.2 e.attrs })) ds

/-- Embeds the `add_attrs` stage of `clean_up` (utils.py lines 634-638). -/
def add_attrs_stage {V : Type} (cfg : List (String × List (String × String)))
    (ds : CUDataset V) : CUDataset V :=
  cfg.foldl (fun acc p =>
    if p.1 == "global" then
      { acc with attrs := p.2.foldl (fun a kv => dictSet a kv.1 kv.2) acc.attrs }
    else
      mapVarEntry acc p.1 (fun e =>
        { e with attrs := p.2.foldl (fun a kv => dictSet a kv.1 kv.2) e.attrs })) ds

/-- Embeds the `common_attrs_only` stage (utils.py lines 582-606): for each
other dataset (given live, or as a path opened through `openDs` with the open
kwargs), keep only the global attributes present with an identical value and
never the date-range attributes, then regenerate the "cat:id" attribute with
the external id generator. -/
def common_attrs_stage {V : Type} (genId : CUDataset V → String)
    (openDs : List (String × String) → String → List (String × String))
    (openKwargs : List (String × String))
    (entries : List (Sum String (List (String × String))))
    (ds : CUDataset V) : CUDataset V :=
  let ds2 := entries.foldl (fun acc ent =>
    let other := match ent with
      | .inl path => openDs openKwargs path
      | .inr a => a
    { acc with attrs := acc.attrs.filter (fun p =>
        match other.lookup p.1 with
        | none => false
        | some w =>
          !(p.1 == "cat:date_start") && !(p.1 == "cat:date_end") && (w == p.2)) }) ds
  { ds2 with attrs := dictSet ds2.attrs "cat:id" (genId ds2) }

/-- Embeds `clean_up` (utils.py lines 437-646): the fixed pipeline of optional
stages, each skipped when its configuration argument is absent or Python-falsy
(empty dict/list/string). External collaborators are supplied through `ext`. -/
def clean_up {V : Type} (ext : CleanupExternals V) (ds : CUDataset V)
    (variables_and_units : Option (List (String × String)))
    (convert_calendar_kwargs : Option (List (String × String)))
    (missing_by_var : Option (List (String × String)))
    (maybe_unstack_dict : Option (List (String × String)))
    (round_var : Option (List (String × Nat)))
    (common_attrs_only : Option (List (Sum String (List (String × String)))))
    (common_attrs_open_kwargs : Option (List (String × String)))
    (attrs_to_remove : Option (List (String × List String)))
    (remove_all_attrs_except : Option (List (String × List String)))
    (add_attrs : Option (List (String × List (String × String))))
    (attrPrefixArg : Option String)
    (to_level : Option String) : CUDataset V :=
  let ds := match variables_and_units with
    | some vu => if vu.isEmpty then ds else ext.changeUnitsOp vu ds
    | none => ds
  let ds := match convert_calendar_kwargs with
    | some kw => if kw.isEmpty then ds else ext.convertCalendarOp kw missing_by_var ds
    | none => ds
  let ds := match maybe_unstack_dict with
    | some mu => if mu.isEmpty then ds else ext.maybeUnstackOp mu ds
    | none => ds
  let ds := match round_var with
    | some rv => if rv.isEmpty then ds else round_var_stage ext.roundOp rv ds
    | none => ds
  let ds := match common_attrs_only with
    | some entries =>
      if entries.isEmpty then ds
      else common_attrs_stage ext.generateIdOp ext.openDsAttrsOp
        (common_attrs_open_kwargs.getD []) entries ds
    | none => ds
  let ds := match to_level with
    | some lvl =>
      if lvl = "" then ds
      else { ds with attrs := dictSet ds.attrs "cat:processing_level" lvl }
    | none => ds
  let ds := match attrs_to_remove with
    | some cfg => if cfg.isEmpty then ds else perVarAttrStage removeMatchingAttrs cfg ds
    | none => ds
  let ds := match remove_all_attrs_except with
    | some cfg => if cfg.isEmpty then ds else perVarAttrStage keepMatchingAttrs cfg ds
    | none => ds
  let ds := match add_attrs with
    | some cfg => if cfg.isEmpty then ds else add_attrs_stage cfg ds
    | none => ds
  let ds := match attrPrefixArg with
    | some pre =>
      if pre = "" then ds
      else { ds with attrs := change_attr_prefix_stage ds.attrs pre }
    | none => ds
  ds

/- ===================== Helper lemmas ===================== -/

theorem foldrMin_le_of_mem {a : Nat} {l : List Nat} (init : Nat) (h : a ∈ l) :
    l.foldr min init ≤ a := by
  induction l with
  | nil => cases h
  | cons b t ih =>
    rcases List.mem_cons.mp h with rfl | h2
    · exact min_le_left _ _
    · exact le_trans (min_le_right _ _) (ih h2)

theorem le_foldrMin {a : Nat} {l : List Nat} {init : Nat} (h : ∀ x ∈ l, a ≤ x)
    (h0 : a ≤ init) : a ≤ l.foldr min init := by
  induction l with
  | nil => exact h0
  | cons b t ih =>
    exact le_min (h b (by simp)) (ih (fun x hx => h x (by simp [hx])))

theorem foldrMin_le_init (l : List Nat) (init : Nat) : l.foldr min init ≤ init := by
  induction l with
  | nil => exact le_refl _
  | cons b t ih => exact le_trans (min_le_right _ _) ih

theorem calRank_pos {c : String} (h : c ≠ "360_day") : 1 ≤ calRank c := by
  unfold calRank
  rw [if_neg h]
  split
  · omega
  · split <;> omega

theorem minimum_calendar_eq_rank_min (cals : List String)
    (hk : ∀ c ∈ cals, c ∈ knownCalendars) :
    minimum_calendar cals = calOfRank ((cals.map calRank).foldr min 3) := by
  have hgoal : minimum_calendar cals =
      (if "360_day" ∈ cals then "360_day"
       else if "noleap" ∈ cals ∨ "365_day" ∈ cals then "noleap"
       else if ∀ x ∈ cals, x = "all_leap" ∨ x = "366_day" then "all_leap"
       else "standard") := by
    simp [minimum_calendar]
  rw [hgoal]
  by_cases h360 : "360_day" ∈ cals
  · have h2 : (cals.map calRank).foldr min 3 = 0 :=
      Nat.le_zero.mp (foldrMin_le_of_mem _ (List.mem_map.mpr ⟨_, h360, by decide⟩))
    rw [if_pos h360, h2]
    decide
  · rw [if_neg h360]
    by_cases hno : "noleap" ∈ cals ∨ "365_day" ∈ cals
    · have hle : (cals.map calRank).foldr min 3 ≤ 1 := by
        rcases hno with hm | hm
        · exact foldrMin_le_of_mem _ (List.mem_map.mpr ⟨_, hm, by decide⟩)
        · exact foldrMin_le_of_mem _ (List.mem_map.mpr ⟨_, hm, by decide⟩)
      have hge : 1 ≤ (cals.map calRank).foldr min 3 := by
        apply le_foldrMin
        · intro x hx
          rcases List.mem_map.mp hx with ⟨c, hc, rfl⟩
          exact calRank_pos (fun h => h360 (h ▸ hc))
        · omega
      have h2 : (cals.map calRank).foldr min 3 = 1 := le_antisymm hle hge
      rw [if_pos hno, h2]
      decide
    · rw [if_neg hno]
      by_cases hall : ∀ x ∈ cals, x = "all_leap" ∨ x = "366_day"
      · have hge : 3 ≤ (cals.map calRank).foldr min 3 := by
          apply le_foldrMin
          · intro x hx
            rcases List.mem_map.mp hx with ⟨c, hc, rfl⟩
            rcases hall c hc with rfl | rfl <;> decide
          · omega
        have h2 : (cals.map calRank).foldr min 3 = 3 :=
          le_antisymm (foldrMin_le_init _ _) hge
        rw [if_pos hall, h2]
        decide
      · push_neg at hall
        obtain ⟨c0, hc0, hc0n1, hc0n2⟩ := hall
        have hc0s : c0 = "standard" := by
          have hk0 := hk c0 hc0
          simp only [knownCalendars, List.mem_cons, List.not_mem_nil, or_false] at hk0
          have hne1 : c0 ≠ "360_day" := fun h => h360 (h ▸ hc0)
          have hne2 : c0 ≠ "noleap" := fun h => hno (Or.inl (h ▸ hc0))
          have hne3 : c0 ≠ "365_day" := fun h => hno (Or.inr (h ▸ hc0))
          rcases hk0 with h | h | h | h | h | h
          · exact absurd h hne1
          · exact absurd h hne2
          · exact absurd h hne3
          · exact h
          · exact absurd h hc0n1
          · exact absurd h hc0n2
        have hle : (cals.map calRank).foldr min 3 ≤ 2 :=
          foldrMin_le_of_mem _ (List.mem_map.mpr ⟨c0, hc0, by rw [hc0s]; decide⟩)
        have hge : 2 ≤ (cals.map calRank).foldr min 3 := by
          apply le_foldrMin
          · intro x hx
            rcases List.mem_map.mp hx with ⟨c, hc, rfl⟩
            have hkc := hk c hc
            simp only [knownCalendars, List.mem_cons, List.not_mem_nil, or_false] at hkc
            have hne1 : c ≠ "360_day" := fun h => h360 (h ▸ hc)
            have hne2 : c ≠ "noleap" := fun h => hno (Or.inl (h ▸ hc))
            have hne3 : c ≠ "365_day" := fun h => hno (Or.inr (h ▸ hc))
            rcases hkc with h | h | h | h | h | h
            · exact absurd h hne1
            · exact absurd h hne2
            · exact absurd h hne3
            · subst h; decide
            · subst h; decide
            · subst h; decide
          · omega
        have h2 : (cals.map calRank).foldr min 3 = 2 := le_antisymm hle hge
        have hallF : ¬ ∀ x ∈ cals, x = "all_leap" ∨ x = "366_day" := by
          push_neg
          exact ⟨c0, hc0, hc0n1, hc0n2⟩
        rw [if_neg hallF, h2]
        decide

/- ===================== Claim theorems ===================== -/

/-- C2 (amended): `minimum_calendar` returns the minimum of its arguments
under the hierarchy 360_day < noleap < standard < all_leap (with the aliases
365_day and 366_day), formalized through the rank of each name; in particular
`minimum_calendar ["standard", "360_day"] = "360_day"`,
`minimum_calendar ["noleap", "all_leap"] = "noleap"` (the hierarchy minimum —
not "standard" as the claim stated), and
`minimum_calendar ["all_leap", "366_day"] = "all_leap"`. -/
theorem minimum_calendar_min_spec :
    (∀ cals : List String, (∀ c ∈ cals, c ∈ knownCalendars) →
      minimum_calendar cals = calOfRank ((cals.map calRank).foldr min 3)) ∧
    minimum_calendar ["standard", "360_day"] = "360_day" ∧
    minimum_calendar ["noleap", "all_leap"] = "noleap" ∧
    minimum_calendar ["all_leap", "366_day"] = "all_leap" :=
  ⟨minimum_calendar_eq_rank_min, by decide, by decide, by decide⟩

/-- C2 witness: the general minimum statement applied to a concrete list. -/
theorem minimum_calendar_min_spec_witness :
    (∀ c ∈ (["standard", "noleap"] : List String), c ∈ knownCalendars) ∧
    minimum_calendar ["standard", "noleap"] = "noleap" :=
  ⟨by decide,
    (minimum_calendar_min_spec.1 ["standard", "noleap"] (by decide)).trans (by decide)⟩

/-- C2 counterexample: the claim states
`minimum_calendar("noleap","all_leap") == "standard"`, but the code returns
"noleap" (which is indeed the hierarchy minimum of the two). -/
theorem minimum_calendar_noleap_allleap_cex :
    minimum_calendar ["noleap", "all_leap"] = "noleap" ∧
    ("noleap" : String) ≠ "standard" :=
  ⟨by decide, by decide⟩

theorem containsAux_of_isPrefixOf {n hay : List Char} (h : n.isPrefixOf hay = true) :
    containsAux n hay = true := by
  cases hay with
  | nil =>
    cases n with
    | nil => decide
    | cons c t => simp [List.isPrefixOf] at h
  | cons c t => simp [containsAux, h]

theorem containsAux_parts (n : List Char) :
    ∀ (pre post : List Char), containsAux n (pre ++ (n ++ post)) = true := by
  intro pre post
  induction pre with
  | nil =>
    apply containsAux_of_isPrefixOf
    simp [List.isPrefixOf_iff_prefix]
  | cons c t ih =>
    simp only [List.cons_append]
    rw [containsAux]
    split
    · rfl
    · exact ih

theorem strContains_of_toList (hay n : String) (pre post : List Char)
    (h : hay.toList = pre ++ (n.toList ++ post)) : strContains hay n = true := by
  unfold strContains
  rw [h]
  exact containsAux_parts _ _ _

/-- C4 (amended): for a variable requested in `change_units` whose source pint
unit differs from the target: equal time-exponent entries — both carrying the
same number, or both absent (`None`), since pint reports no entry at all for a
time-free unit — select the direct conversion; when both units carry a time
dimension, a source exponent exceeding the target's by exactly one selects the
amount-to-rate conversion and one exactly below selects rate-to-amount; when
exactly one of the two units carries a time dimension, the `None - number`
subtraction raises a TypeError instead of performing any conversion, so the
claimed amount↔rate dispatch does not extend to time-free (exponent-0)
units. -/
theorem change_units_time_dispatch (v : String) (src tgt : PintUnit)
    (hne : src ≠ tgt) :
    (src.timeExp = tgt.timeExp → change_units_var v src tgt = .direct) ∧
    (∀ a b : Int, src.timeExp = some a → tgt.timeExp = some b →
      (a - b = 1 → change_units_var v src tgt = .amount2rate) ∧
      (a - b = -1 → change_units_var v src tgt = .rate2amount)) ∧
    (src.timeExp = none → ∀ b : Int, tgt.timeExp = some b →
      change_units_var v src tgt = .raiseTypeError) ∧
    (tgt.timeExp = none → ∀ a : Int, src.timeExp = some a →
      change_units_var v src tgt = .raiseTypeError) := by
  refine ⟨?_, ?_, ?_, ?_⟩
  · intro heq
    simp [change_units_var, hne, heq]
  · intro a b ha hb
    constructor <;> intro h
    · have hne2 : src.timeExp ≠ tgt.timeExp := by
        rw [ha, hb]
        intro hc
        have : a = b := by injection hc
        omega
      have hab : ¬ a = b := by omega
      simp [change_units_var, hne, hne2, ha, hb, h, hab]
    · have hne2 : src.timeExp ≠ tgt.timeExp := by
        rw [ha, hb]
        intro hc
        have : a = b := by injection hc
        omega
      have h1 : a - b ≠ 1 := by omega
      have hab : ¬ a = b := by omega
      simp [change_units_var, hne, hne2, ha, hb, h, h1, hab]
  · intro ha b hb
    have hne2 : src.timeExp ≠ tgt.timeExp := by
      rw [ha, hb]
      exact fun hc => Option.noConfusion hc
    simp [change_units_var, hne, hne2, ha, hb]
  · intro hb a ha
    have hne2 : src.timeExp ≠ tgt.timeExp := by
      rw [ha, hb]
      exact fun hc => Option.noConfusion hc
    simp [change_units_var, hne, hne2, ha, hb]

/-- C4 witness: a rate converted to another rate unit (equal exponents, both
present) is direct; an energy amount "J" (time exponent -2) to the power rate
"W" (-3) — both exponents present — is amount-to-rate; the time-free amount
"mm" against the rate "mm s-1" raises the TypeError. -/
theorem change_units_time_dispatch_witness :
    (⟨"kg m-2 s-1", some (-1)⟩ : PintUnit) ≠ ⟨"mm d-1", some (-1)⟩ ∧
    change_units_var "pr" ⟨"kg m-2 s-1", some (-1)⟩ ⟨"mm d-1", some (-1)⟩ =
      .direct ∧
    change_units_var "rsds" ⟨"J", some (-2)⟩ ⟨"W", some (-3)⟩ = .amount2rate ∧
    change_units_var "pr" ⟨"mm", none⟩ ⟨"mm s-1", some (-1)⟩ = .raiseTypeError :=
  ⟨by decide,
    (change_units_time_dispatch "pr" ⟨"kg m-2 s-1", some (-1)⟩
      ⟨"mm d-1", some (-1)⟩ (by decide)).1 rfl,
    ((change_units_time_dispatch "rsds" ⟨"J", some (-2)⟩ ⟨"W", some (-3)⟩
      (by decide)).2.1 (-2) (-3) rfl rfl).1 (by decide),
    (change_units_time_dispatch "pr" ⟨"mm", none⟩ ⟨"mm s-1", some (-1)⟩
      (by decide)).2.2.1 rfl (-1) rfl⟩

/-- C4 counterexample: "mm" is an integrated amount — its physical time
exponent is 0, which pint reports as an absent dimensionality entry (`None`) —
and "mm s-1" is a rate with exponent -1, so the source exponent exceeds the
target's by exactly 1 and the claim demands the amount-to-rate conversion;
the code instead hits `None - (-1)` and raises a TypeError. -/
theorem change_units_amount_typeerror_cex :
    change_units_var "pr" ⟨"mm", none⟩ ⟨"mm s-1", some (-1)⟩ = .raiseTypeError ∧
    (ConvAction.raiseTypeError ≠ ConvAction.amount2rate) :=
  ⟨by decide, by decide⟩

/-- C5 (amended): when both units carry a time dimension and the exponent
difference lies outside 0, +1, -1, `change_units` raises NotImplementedError
whose message names the source unit and the target unit — but not the
variable; when exactly one of the two units lacks a time dimension (pint
exponent `None`), the exponent subtraction raises a bare TypeError that names
neither the units nor the variable. -/
theorem change_units_mismatch_error_spec (v : String) (src tgt : PintUnit) :
    (∀ a b : Int, src.timeExp = some a → tgt.timeExp = some b →
      a - b ≠ 0 → a - b ≠ 1 → a - b ≠ -1 →
      change_units_var v src tgt =
        .raiseNotImplemented (change_units_msg src.name tgt.name) ∧
      strContains (change_units_msg src.name tgt.name) src.name = true ∧
      strContains (change_units_msg src.name tgt.name) tgt.name = true) ∧
    (src.timeExp = none → ∀ b : Int, tgt.timeExp = some b →
      change_units_var v src tgt = .raiseTypeError) ∧
    (tgt.timeExp = none → ∀ a : Int, src.timeExp = some a →
      change_units_var v src tgt = .raiseTypeError) := by
  refine ⟨?_, ?_, ?_⟩
  · intro a b ha hb h0 h1 h2
    refine ⟨?_, ?_, ?_⟩
    · have hne2 : src.timeExp ≠ tgt.timeExp := by
        rw [ha, hb]
        intro hc
        have : a = b := by injection hc
        omega
      have hne : src ≠ tgt := fun h => hne2 (h ▸ rfl)
      have hab : ¬ a = b := by omega
      simp [change_units_var, hne, hne2, ha, hb, h1, h2, hab]
    · apply strContains_of_toList _ _ "No known transformation between ".toList
        ((" and " ++ tgt.name ++ " (temporal dimensionality mismatch).").toList)
      simp [change_units_msg, String.toList, String.data_append]
    · apply strContains_of_toList _ _
        (("No known transformation between " ++ src.name ++ " and ").toList)
        (" (temporal dimensionality mismatch).".toList)
      simp [change_units_msg, String.toList, String.data_append]
  · intro ha b hb
    have hne2 : src.timeExp ≠ tgt.timeExp := by
      rw [ha, hb]
      exact fun hc => Option.noConfusion hc
    have hne : src ≠ tgt := fun h => hne2 (h ▸ rfl)
    simp [change_units_var, hne, hne2, ha, hb]
  · intro hb a ha
    have hne2 : src.timeExp ≠ tgt.timeExp := by
      rw [ha, hb]
      exact fun hc => Option.noConfusion hc
    have hne : src ≠ tgt := fun h => hne2 (h ▸ rfl)
    simp [change_units_var, hne, hne2, ha, hb]

/-- C5 witness: units three time powers apart (both exponents present) trigger
the NotImplementedError carrying both unit strings; the time-free "mm" against
"m s-3" triggers the bare TypeError. -/
theorem change_units_mismatch_error_spec_witness :
    ((⟨"m s2", some 2⟩ : PintUnit).timeExp = some 2) ∧
    change_units_var "tasmax" ⟨"m s2", some 2⟩ ⟨"m / s", some (-1)⟩ =
      .raiseNotImplemented (change_units_msg "m s2" "m / s") ∧
    change_units_var "pr" ⟨"mm", none⟩ ⟨"m s-3", some (-3)⟩ = .raiseTypeError :=
  ⟨rfl,
    ((change_units_mismatch_error_spec "tasmax" ⟨"m s2", some 2⟩
      ⟨"m / s", some (-1)⟩).1 2 (-1) rfl rfl (by decide) (by decide)
        (by decide)).1,
    (change_units_mismatch_error_spec "pr" ⟨"mm", none⟩ ⟨"m s-3", some (-3)⟩).2.1
      rfl (-3) rfl⟩

/-- C5 counterexample: the claim says the raised message names the variable;
for variable "tasmax" with units "m s2" → "m / s" (time exponents 2 and -1)
the code raises the NotImplementedError, but "tasmax" does not occur in the
message. -/
theorem change_units_error_variable_cex :
    change_units_var "tasmax" ⟨"m s2", some 2⟩ ⟨"m / s", some (-1)⟩ =
      .raiseNotImplemented (change_units_msg "m s2" "m / s") ∧
    strContains (change_units_msg "m s2" "m / s") "tasmax" = false :=
  ⟨by decide, by decide⟩

/-- C7: for every controlled-vocabulary lookup (regex-keyed or not): when the
key is unmatched, default "pass" returns the key, default "error" raises
KeyError naming the key, and any other default value is returned as given;
when the key matches, the mapped value is returned whatever the default. -/
theorem cv_lookup_contract (isRegex : Bool) (fm : String → String → Bool)
    (cv : List (String × String)) (key : String) :
    (cvLookup isRegex fm cv key = none →
      cvfunc isRegex fm cv key (.pstr "pass") = .ret (.pstr key) ∧
      cvfunc isRegex fm cv key (.pstr "error") = .keyError key ∧
      ∀ d : PyVal, d ≠ .pstr "pass" → d ≠ .pstr "error" →
        cvfunc isRegex fm cv key d = .ret d) ∧
    (∀ v, cvLookup isRegex fm cv key = some v →
      ∀ d : PyVal, cvfunc isRegex fm cv key d = .ret (.pstr v)) := by
  constructor
  · intro hnone
    refine ⟨by simp [cvfunc, hnone], by simp [cvfunc, hnone], ?_⟩
    intro d hd1 hd2
    cases d with
    | pstr s =>
      have hs1 : s ≠ "pass" := fun h => hd1 (by rw [h])
      have hs2 : s ≠ "error" := fun h => hd2 (by rw [h])
      simp [cvfunc, hnone, hs1, hs2]
    | pother n => simp [cvfunc, hnone]
  · intro v hv d
    simp [cvfunc, hv]

/-- C7 witness: a plain (non-regex) vocabulary on an unmapped key with each
default policy, and on a mapped key. -/
theorem cv_lookup_contract_witness :
    cvLookup false (fun _ _ => false) [("D", "day")] "foo" = none ∧
    cvfunc false (fun _ _ => false) [("D", "day")] "foo" (.pstr "pass") =
      .ret (.pstr "foo") ∧
    cvfunc false (fun _ _ => false) [("D", "day")] "foo" (.pstr "error") =
      .keyError "foo" ∧
    cvfunc false (fun _ _ => false) [("D", "day")] "D" (.pstr "error") =
      .ret (.pstr "day") :=
  ⟨by decide,
    ((cv_lookup_contract false (fun _ _ => false) [("D", "day")] "foo").1
      (by decide)).1,
    ((cv_lookup_contract false (fun _ _ => false) [("D", "day")] "foo").1
      (by decide)).2.1,
    (cv_lookup_contract false (fun _ _ => false) [("D", "day")] "D").2 "day"
      (by decide) (.pstr "error")⟩

theorem mem_sortedInsertInt {a x : Int} {l : List Int} :
    a ∈ sortedInsertInt x l ↔ a = x ∨ a ∈ l := by
  induction l with
  | nil => simp [sortedInsertInt]
  | cons y t ih =>
    by_cases h1 : x = y
    · subst h1
      simp [sortedInsertInt]
    · by_cases h2 : x < y
      · simp [sortedInsertInt, h1, h2]
      · simp only [sortedInsertInt, if_neg h1, if_neg h2, List.mem_cons, ih]
        tauto

theorem mem_uniqueSortedInt {a : Int} {l : List Int} :
    a ∈ uniqueSortedInt l ↔ a ∈ l := by
  induction l with
  | nil => simp [uniqueSortedInt]
  | cons b t ih =>
    show a ∈ sortedInsertInt b (uniqueSortedInt t) ↔ _
    rw [mem_sortedInsertInt, ih]
    simp

theorem lookup_map_pairs {β : Type} (l : List Int) (g : Int → β) (x : Int) :
    (l.map (fun a => (a, g a))).lookup x = if x ∈ l then some (g x) else none := by
  induction l with
  | nil => simp
  | cons b t ih =>
    by_cases h : x = b
    · subst h
      simp [List.lookup]
    · have hbe : (x == b) = false := by simp [h]
      simp [List.lookup, hbe, ih, h]

theorem mem_stack_points (ds : Dataset2) (mask : List (List Bool)) (x y v : Int) :
    (x, y, v) ∈ (stack_drop_nans ds mask).points ↔
      ∃ i, i < ds.xs.length ∧ ∃ j, j < ds.ys.length ∧ maskAt mask i j = true ∧
        ds.xs.getD i 0 = x ∧ ds.ys.getD j 0 = y ∧ dataAt ds.data i j = v := by
  simp only [stack_drop_nans, List.mem_flatMap, List.mem_filterMap, List.mem_range]
  constructor
  · rintro ⟨i, hi, j, hj, hval⟩
    by_cases hm : maskAt mask i j
    · rw [if_pos hm] at hval
      have h3 := Option.some.inj hval
      refine ⟨i, hi, j, hj, hm, ?_, ?_, ?_⟩
      · exact congrArg (fun p => p.1) h3
      · exact congrArg (fun p => p.2.1) h3
      · exact congrArg (fun p => p.2.2) h3
    · rw [if_neg hm] at hval
      cases hval
  · rintro ⟨i, hi, j, hj, hm, hx, hy, hv⟩
    exact ⟨i, hi, j, hj, by rw [if_pos hm, hx, hy, hv]⟩

theorem gridGet_unstack (st : StackedDS) (x y : Int) :
    gridGet (unstack_fill_nan st) x y =
      if x ∈ st.points.map (fun p => p.1) ∧ y ∈ st.points.map (fun p => p.2.1) then
        some (findPoint st.points x y)
      else none := by
  unfold gridGet unstack_fill_nan
  rw [lookup_map_pairs]
  by_cases hx : x ∈ uniqueSortedInt (st.points.map (fun p => p.1))
  · rw [if_pos hx]
    simp only [Option.some_bind]
    rw [lookup_map_pairs]
    by_cases hy : y ∈ uniqueSortedInt (st.points.map (fun p => p.2.1))
    · rw [if_pos hy,
        if_pos ⟨mem_uniqueSortedInt.mp hx, mem_uniqueSortedInt.mp hy⟩]
    · rw [if_neg hy, if_neg (fun hc => hy (mem_uniqueSortedInt.mpr hc.2))]
  · rw [if_neg hx]
    simp only [Option.none_bind]
    rw [if_neg (fun hc => hx (mem_uniqueSortedInt.mpr hc.1))]

/-- C1 (amended): stacking with a mask and unstacking reconstructs the dataset
at every coordinate pair whose mask entry is true; a masked-out pair is set to
the NaN fill provided its row and its column each retain at least one true
mask entry (a fully masked-out row or column drops its coordinate from the
reconstructed dataset altogether, so such pairs are absent, not filled).
Coordinate arrays are duplicate-free, as xarray dimension coordinates are. -/
theorem stack_unstack_roundtrip_masked (ds : Dataset2) (mask : List (List Bool))
    (hxnd : ds.xs.Nodup) (hynd : ds.ys.Nodup)
    (i j : Nat) (hi : i < ds.xs.length) (hj : j < ds.ys.length) :
    (maskAt mask i j = true →
      gridGet (unstack_fill_nan (stack_drop_nans ds mask)) ds.xs[i] ds.ys[j] =
        some (some (dataAt ds.data i j))) ∧
    (maskAt mask i j = false →
      (∃ j2, j2 < ds.ys.length ∧ maskAt mask i j2 = true) →
      (∃ i2, i2 < ds.xs.length ∧ maskAt mask i2 j = true) →
      gridGet (unstack_fill_nan (stack_drop_nans ds mask)) ds.xs[i] ds.ys[j] =
        some none) := by
  constructor
  · intro hm
    have hmem : (ds.xs[i], ds.ys[j], dataAt ds.data i j) ∈
        (stack_drop_nans ds mask).points :=
      (mem_stack_points ds mask _ _ _).mpr
        ⟨i, hi, j, hj, hm, List.getD_eq_getElem _ _ hi,
          List.getD_eq_getElem _ _ hj, rfl⟩
    have hxm : ds.xs[i] ∈ (stack_drop_nans ds mask).points.map (fun p => p.1) :=
      List.mem_map.mpr ⟨_, hmem, rfl⟩
    have hym : ds.ys[j] ∈ (stack_drop_nans ds mask).points.map (fun p => p.2.1) :=
      List.mem_map.mpr ⟨_, hmem, rfl⟩
    rw [gridGet_unstack, if_pos ⟨hxm, hym⟩]
    have hfind : findPoint (stack_drop_nans ds mask).points ds.xs[i] ds.ys[j] =
        some (dataAt ds.data i j) := by
      unfold findPoint
      have hsome : ((stack_drop_nans ds mask).points.find?
          (fun p => p.1 == ds.xs[i] && p.2.1 == ds.ys[j])).isSome := by
        rw [List.find?_isSome]
        exact ⟨_, hmem, by simp⟩
      obtain ⟨p0, hp0⟩ := Option.isSome_iff_exists.mp hsome
      rw [hp0]
      obtain ⟨px, py, pv⟩ := p0
      have hp0pred := List.find?_some hp0
      have hp0mem := List.mem_of_find?_eq_some hp0
      have hx0 : px = ds.xs[i] := by
        have h4 := (Bool.and_eq_true _ _).mp hp0pred
        exact eq_of_beq h4.1
      have hy0 : py = ds.ys[j] := by
        have h4 := (Bool.and_eq_true _ _).mp hp0pred
        exact eq_of_beq h4.2
      obtain ⟨i2, hi2, j2, hj2, hm2, hx2, hy2, hv2⟩ :=
        (mem_stack_points ds mask _ _ _).mp hp0mem
      have hxi2 : ds.xs[i2] = ds.xs[i] := by
        rw [← List.getD_eq_getElem ds.xs 0 hi2, hx2, hx0]
      have hyi2 : ds.ys[j2] = ds.ys[j] := by
        rw [← List.getD_eq_getElem ds.ys 0 hj2, hy2, hy0]
      have hii : i2 = i := (List.Nodup.getElem_inj_iff hxnd).mp hxi2
      have hjj : j2 = j := (List.Nodup.getElem_inj_iff hynd).mp hyi2
      subst hii
      subst hjj
      simp [hv2]
    rw [hfind]
  · rintro hm ⟨j2, hj2, hmj2⟩ ⟨i2, hi2, hmi2⟩
    have hmemr : (ds.xs[i], ds.ys[j2], dataAt ds.data i j2) ∈
        (stack_drop_nans ds mask).points :=
      (mem_stack_points ds mask _ _ _).mpr
        ⟨i, hi, j2, hj2, hmj2, List.getD_eq_getElem _ _ hi,
          List.getD_eq_getElem _ _ hj2, rfl⟩
    have hmemc : (ds.xs[i2], ds.ys[j], dataAt ds.data i2 j) ∈
        (stack_drop_nans ds mask).points :=
      (mem_stack_points ds mask _ _ _).mpr
        ⟨i2, hi2, j, hj, hmi2, List.getD_eq_getElem _ _ hi2,
          List.getD_eq_getElem _ _ hj, rfl⟩
    have hxm : ds.xs[i] ∈ (stack_drop_nans ds mask).points.map (fun p => p.1) :=
      List.mem_map.mpr ⟨_, hmemr, rfl⟩
    have hym : ds.ys[j] ∈ (stack_drop_nans ds mask).points.map (fun p => p.2.1) :=
      List.mem_map.mpr ⟨_, hmemc, rfl⟩
    rw [gridGet_unstack, if_pos ⟨hxm, hym⟩]
    have hfind : findPoint (stack_drop_nans ds mask).points ds.xs[i] ds.ys[j] =
        none := by
      unfold findPoint
      rw [List.find?_eq_none.mpr ?_]
      · rfl
      · rintro ⟨px, py, pv⟩ hpmem hpred
        have hx0 : px = ds.xs[i] := by
          have h4 := (Bool.and_eq_true _ _).mp hpred
          exact eq_of_beq h4.1
        have hy0 : py = ds.ys[j] := by
          have h4 := (Bool.and_eq_true _ _).mp hpred
          exact eq_of_beq h4.2
        obtain ⟨i3, hi3, j3, hj3, hm3, hx3, hy3, hv3⟩ :=
          (mem_stack_points ds mask _ _ _).mp hpmem
        have hxi3 : ds.xs[i3] = ds.xs[i] := by
          rw [← List.getD_eq_getElem ds.xs 0 hi3, hx3, hx0]
        have hyi3 : ds.ys[j3] = ds.ys[j] := by
          rw [← List.getD_eq_getElem ds.ys 0 hj3, hy3, hy0]
        have hii : i3 = i := (List.Nodup.getElem_inj_iff hxnd).mp hxi3
        have hjj : j3 = j := (List.Nodup.getElem_inj_iff hynd).mp hyi3
        rw [hii, hjj] at hm3
        rw [hm3] at hm
        cases hm
    rw [hfind]

/-- C1 witness: a 2×2 checkerboard mask — a masked-true point recovers its
value and a masked-false point (whose row and column both keep a point)
becomes the NaN fill. -/
theorem stack_unstack_roundtrip_masked_witness :
    ([0, 1] : List Int).Nodup ∧
    maskAt [[true, false], [false, true]] 0 1 = false ∧
    gridGet (unstack_fill_nan (stack_drop_nans ⟨[0, 1], [0, 1], [[10, 20], [30, 40]]⟩
      [[true, false], [false, true]])) 0 0 = some (some 10) ∧
    gridGet (unstack_fill_nan (stack_drop_nans ⟨[0, 1], [0, 1], [[10, 20], [30, 40]]⟩
      [[true, false], [false, true]])) 0 1 = some none :=
  ⟨by decide, by decide,
    (stack_unstack_roundtrip_masked ⟨[0, 1], [0, 1], [[10, 20], [30, 40]]⟩
      [[true, false], [false, true]] (by decide) (by decide) 0 0
      (by decide) (by decide)).1 (by decide),
    (stack_unstack_roundtrip_masked ⟨[0, 1], [0, 1], [[10, 20], [30, 40]]⟩
      [[true, false], [false, true]] (by decide) (by decide) 0 1
      (by decide) (by decide)).2 (by decide)
      ⟨0, by decide, by decide⟩ ⟨1, by decide, by decide⟩⟩

/-- C1 counterexample: with the second row fully masked out, the claim as
stated demands the fill sentinel at the masked-false point (x = 1, y = 0), but
the reconstructed dataset does not contain coordinate 1 at all: the cell is
absent (`none`), not a NaN-filled cell (`some none`). -/
theorem stack_unstack_dropped_row_cex :
    maskAt [[true, true], [false, false]] 1 0 = false ∧
    gridGet (unstack_fill_nan (stack_drop_nans ⟨[0, 1], [0, 1], [[10, 20], [30, 40]]⟩
      [[true, true], [false, false]])) 1 0 = none ∧
    (none : Option (Option Int)) ≠ some none :=
  ⟨by decide, by decide, by decide⟩

/-- C6: `stack_drop_nans` records an `original_shape` attribute equal to the
sizes of the stacked dimensions joined by "x". -/
theorem stack_original_shape_spec (ds : Dataset2) (mask : List (List Bool))
    (n m : Nat) (hn : mask.length = n) (hpos : 0 < n)
    (hm : ∀ row ∈ mask, row.length = m) :
    (stack_drop_nans ds mask).shapeAttr =
      String.intercalate "x" [toString n, toString m] := by
  cases mask with
  | nil =>
    simp at hn
    omega
  | cons r t =>
    have hr : r.length = m := hm r (by simp)
    show original_shape (r :: t) = _
    unfold original_shape
    rw [show (r :: t).headD [] = r from rfl, hr, hn]
    rfl

/-- C6 witness: a 3×4 mask yields the attribute "3x4". -/
theorem stack_original_shape_spec_witness :
    ([[true, true, true, true], [true, false, true, true],
      [true, true, true, true]] : List (List Bool)).length = 3 ∧
    (stack_drop_nans ⟨[], [], []⟩ [[true, true, true, true],
      [true, false, true, true], [true, true, true, true]]).shapeAttr = "3x4" :=
  ⟨by decide,
    (stack_original_shape_spec ⟨[], [], []⟩ _ 3 4 (by decide) (by decide)
      (by decide)).trans (by decide)⟩

theorem lexLt_asymm : ∀ {a b : List Char}, lexLt a b = true → lexLt b a = false := by
  intro a
  induction a with
  | nil =>
    intro b h
    cases b with
    | nil => simp [lexLt] at h
    | cons d s => rfl
  | cons c t ih =>
    intro b h
    cases b with
    | nil => simp [lexLt] at h
    | cons d s =>
      by_cases h1 : c < d
      · have h2 : ¬ d < c := lt_asymm h1
        simp [lexLt, h1, h2]
      · by_cases h2 : d < c
        · simp [lexLt, h1, h2] at h
        · simp only [lexLt, if_neg h1, if_neg h2] at h
          simp only [lexLt, if_neg h2, if_neg h1]
          exact ih h

theorem lexLt_connex : ∀ {a b : List Char},
    lexLt a b = false → lexLt b a = false → a = b := by
  intro a
  induction a with
  | nil =>
    intro b h1 _
    cases b with
    | nil => rfl
    | cons d s => simp [lexLt] at h1
  | cons c t ih =>
    intro b h1 h2
    cases b with
    | nil => simp [lexLt] at h2
    | cons d s =>
      by_cases hcd : c < d
      · simp [lexLt, hcd] at h1
      · by_cases hdc : d < c
        · simp [lexLt, hdc] at h2
        · have hce : c = d := le_antisymm (not_lt.mp hdc) (not_lt.mp hcd)
          subst hce
          simp only [lexLt, if_neg hcd, if_neg hdc] at h1 h2
          rw [ih h1 h2]

theorem lexLt_trans : ∀ {a b c : List Char},
    lexLt a b = true → lexLt b c = true → lexLt a c = true := by
  intro a
  induction a with
  | nil =>
    intro b c h1 h2
    cases b with
    | nil => simp [lexLt] at h1
    | cons d s =>
      cases c with
      | nil => simp [lexLt] at h2
      | cons e u => rfl
  | cons x t ih =>
    intro b c h1 h2
    cases b with
    | nil => simp [lexLt] at h1
    | cons y s =>
      cases c with
      | nil => simp [lexLt] at h2
      | cons z u =>
        by_cases hxy : x < y
        · by_cases hyz : y < z
          · have hxz : x < z := lt_trans hxy hyz
            simp [lexLt, hxz]
          · by_cases hzy : z < y
            · simp [lexLt, hyz, hzy] at h2
            · have hyez : y = z := le_antisymm (not_lt.mp hzy) (not_lt.mp hyz)
              subst hyez
              simp [lexLt, hxy]
        · by_cases hyx : y < x
          · simp [lexLt, hxy, hyx] at h1
          · have hxey : x = y := le_antisymm (not_lt.mp hyx) (not_lt.mp hxy)
            subst hxey
            simp only [lexLt, if_neg (lt_irrefl x)] at h1
            by_cases hxz : x < z
            · simp [lexLt, hxz]
            · by_cases hzx : z < x
              · simp [lexLt, hxz, hzx] at h2
              · have hxez : x = z := le_antisymm (not_lt.mp hzx) (not_lt.mp hxz)
                subst hxez
                simp only [lexLt, if_neg (lt_irrefl x)] at h2 ⊢
                exact ih h1 h2

theorem seasonKeyLe_total (seasons : List (String × String)) (a b : String) :
    seasonKeyLe seasons a b = true ∨ seasonKeyLe seasons b a = true := by
  unfold seasonKeyLe strLt
  cases h : lexLt (seasonInverted seasons b).toList
      (seasonInverted seasons a).toList with
  | true =>
    right
    rw [Bool.not_eq_true']
    exact lexLt_asymm h
  | false =>
    left
    rw [Bool.not_eq_true']

theorem seasonKeyLe_trans (seasons : List (String × String)) (a b c : String)
    (hab : seasonKeyLe seasons a b = true) (hbc : seasonKeyLe seasons b c = true) :
    seasonKeyLe seasons a c = true := by
  unfold seasonKeyLe strLt at hab hbc ⊢
  rw [Bool.not_eq_true'] at hab hbc ⊢
  cases hca : lexLt (seasonInverted seasons c).toList
      (seasonInverted seasons a).toList with
  | false => rfl
  | true =>
    exfalso
    cases hakb : lexLt (seasonInverted seasons a).toList
        (seasonInverted seasons b).toList with
    | true =>
      have h3 := lexLt_trans hca hakb
      rw [h3] at hbc
      cases hbc
    | false =>
      have heq := lexLt_connex hakb hab
      rw [← heq] at hbc
      rw [hca] at hbc
      cases hbc

/-- C3 (amended): the season axis produced by `unstack_dates` is sorted by the
chronological (lexicographic) order of each label's "MM-DD" key taken from the
seasons dict (the last binding of a label wins, as in the Python
`dict(zip(values, keys))` inversion); in particular, for a quarterly series
anchored in December the axis is MAM, JJA, SON, DJF: DJF, keyed "12-01", is
placed last — after MAM — not before it. -/
theorem unstack_dates_season_sort_spec :
    (∀ (seasons : List (String × String)) (axis : List String),
      List.Sorted (fun a b => seasonKeyLe seasons a b = true)
        (sortSeasonAxis seasons axis) ∧
      (sortSeasonAxis seasons axis).Perm axis) ∧
    unstack_dates_axis (seasonsFromMonths 3 [3, 6, 9, 12])
      ["12-01", "03-01", "06-01", "09-01"] = ["MAM", "JJA", "SON", "DJF"] := by
  constructor
  · intro seasons axis
    haveI : IsTotal String (fun a b => seasonKeyLe seasons a b = true) :=
      ⟨seasonKeyLe_total seasons⟩
    haveI : IsTrans String (fun a b => seasonKeyLe seasons a b = true) :=
      ⟨seasonKeyLe_trans seasons⟩
    exact ⟨List.sorted_insertionSort _ _, List.perm_insertionSort _ _⟩
  · decide

/-- C3 counterexample: for a December-anchored quarterly series the code sorts
the axis to MAM, JJA, SON, DJF — MAM comes strictly before DJF, so DJF is not
placed before MAM as the claim states. -/
theorem unstack_dates_djf_last_cex :
    unstack_dates_axis (seasonsFromMonths 3 [3, 6, 9, 12])
      ["12-01", "03-01", "06-01", "09-01", "12-01"] =
      ["MAM", "JJA", "SON", "DJF"] ∧
    List.indexOf "MAM" (unstack_dates_axis (seasonsFromMonths 3 [3, 6, 9, 12])
      ["12-01", "03-01", "06-01", "09-01", "12-01"]) <
      List.indexOf "DJF" (unstack_dates_axis (seasonsFromMonths 3 [3, 6, 9, 12])
        ["12-01", "03-01", "06-01", "09-01", "12-01"]) :=
  ⟨by decide, by decide⟩

theorem mem_keys_dictSet {l : List (String × String)} {k v a : String}
    (h : a ∈ l.map (fun p => p.1)) : a ∈ (dictSet l k v).map (fun p => p.1) := by
  unfold dictSet
  split
  · rcases List.mem_map.mp h with ⟨p, hp, rfl⟩
    apply List.mem_map.mpr
    refine ⟨(if p.1 == k then (k, v) else p), List.mem_map_of_mem _ hp, ?_⟩
    by_cases h2 : p.1 = k
    · simp [h2]
    · simp [h2]
  · rw [List.map_append]
    exact List.mem_append_left _ h

theorem mem_keys_dictSet_elim {l : List (String × String)} {k v a : String}
    (h : a ∈ (dictSet l k v).map (fun p => p.1)) :
    a ∈ l.map (fun p => p.1) ∨ a = k := by
  unfold dictSet at h
  split at h
  · rcases List.mem_map.mp h with ⟨q, hq, rfl⟩
    rcases List.mem_map.mp hq with ⟨p, hp, rfl⟩
    by_cases h2 : p.1 = k
    · right
      simp [h2]
    · left
      exact List.mem_map.mpr ⟨p, hp, by simp [h2]⟩
  · rw [List.map_append] at h
    rcases List.mem_append.mp h with h | h
    · left
      exact h
    · right
      simpa using h

theorem mem_keys_dictPop {l : List (String × String)} {k a : String} :
    a ∈ (dictPop l k).map (fun p => p.1) ↔
      a ∈ l.map (fun p => p.1) ∧ a ≠ k := by
  unfold dictPop
  constructor
  · intro h
    rcases List.mem_map.mp h with ⟨p, hp, rfl⟩
    rcases List.mem_filter.mp hp with ⟨hpl, hcond⟩
    refine ⟨List.mem_map.mpr ⟨p, hpl, rfl⟩, ?_⟩
    simpa using hcond
  · rintro ⟨h, hne⟩
    rcases List.mem_map.mp h with ⟨p, hp, rfl⟩
    exact List.mem_map.mpr ⟨p, List.mem_filter.mpr ⟨hp, by simpa using hne⟩, rfl⟩

theorem change_attr_prefix_step_keeps (pre k : String)
    (hempty : strReplace k "cat:" pre = "") (acc : List (String × String))
    (k2 : String) (h : k ∈ acc.map (fun p => p.1)) :
    k ∈ (change_attr_prefix_step pre acc k2).map (fun p => p.1) := by
  simp only [change_attr_prefix_step]
  by_cases hk2 : k2 = k
  · subst hk2
    rw [hempty]
    simp [h]
  · by_cases hcond : strReplace k2 "cat:" pre = ""
    · rw [if_neg (fun hc => hc hcond)]
      exact h
    · rw [if_pos hcond]
      cases hl : acc.lookup k2 with
      | none => exact h
      | some v =>
        apply mem_keys_dictSet
        exact mem_keys_dictPop.mpr ⟨h, Ne.symm hk2⟩

theorem change_attr_prefix_step_no_empty (pre : String)
    (acc : List (String × String)) (k2 : String)
    (h : "" ∉ acc.map (fun p => p.1)) :
    "" ∉ (change_attr_prefix_step pre acc k2).map (fun p => p.1) := by
  simp only [change_attr_prefix_step]
  by_cases hcond : strReplace k2 "cat:" pre = ""
  · rw [if_neg (fun hc => hc hcond)]
    exact h
  · rw [if_pos hcond]
    cases hl : acc.lookup k2 with
    | none => exact h
    | some v =>
      intro hc
      rcases mem_keys_dictSet_elim hc with hc2 | hc2
      · exact h (mem_keys_dictPop.mp hc2).1
      · exact hcond hc2.symm

theorem change_attr_prefix_fold_keeps (pre k : String)
    (hempty : strReplace k "cat:" pre = "") :
    ∀ (ks : List String) (acc : List (String × String)),
      k ∈ acc.map (fun p => p.1) →
      k ∈ (ks.foldl (change_attr_prefix_step pre) acc).map (fun p => p.1) := by
  intro ks
  induction ks with
  | nil =>
    intro acc h
    exact h
  | cons k2 t ih =>
    intro acc h
    rw [List.foldl_cons]
    exact ih _ (change_attr_prefix_step_keeps pre k hempty acc k2 h)

theorem change_attr_prefix_fold_no_empty (pre : String) :
    ∀ (ks : List String) (acc : List (String × String)),
      "" ∉ acc.map (fun p => p.1) →
      "" ∉ (ks.foldl (change_attr_prefix_step pre) acc).map (fun p => p.1) := by
  intro ks
  induction ks with
  | nil =>
    intro acc h
    exact h
  | cons k2 t ih =>
    intro acc h
    rw [List.foldl_cons]
    exact ih _ (change_attr_prefix_step_no_empty pre acc k2 h)

/-- C8 (amended): in the attribute-key rewrite stage of `clean_up`, a global
attribute key whose rewrite produces an empty key is left alone: no empty key
is ever written, and the original key remains present in the attributes (it is
not removed — the `pop` only happens inside the non-empty branch). -/
theorem attr_rewrite_empty_key_spec (attrs : List (String × String))
    (pre k : String) (hk : k ∈ attrs.map (fun p => p.1))
    (hempty : strReplace k "cat:" pre = "") :
    k ∈ (change_attr_prefix_stage attrs pre).map (fun p => p.1) ∧
    ("" ∉ attrs.map (fun p => p.1) →
      "" ∉ (change_attr_prefix_stage attrs pre).map (fun p => p.1)) := by
  constructor
  · exact change_attr_prefix_fold_keeps pre k hempty _ attrs hk
  · intro h0
    exact change_attr_prefix_fold_no_empty pre _ attrs h0

/-- C8 witness: global attrs with an empty key (the only key a non-empty
replacement string can rewrite to the empty key) keep that key. -/
theorem attr_rewrite_empty_key_spec_witness :
    ("" ∈ ([("", "x"), ("title", "t")] : List (String × String)).map
      (fun p => p.1)) ∧
    strReplace "" "cat:" "new:" = "" ∧
    "" ∈ (change_attr_prefix_stage [("", "x"), ("title", "t")] "new:").map
      (fun p => p.1) :=
  ⟨by decide, by decide,
    (attr_rewrite_empty_key_spec [("", "x"), ("title", "t")] "new:" ""
      (by decide) (by decide)).1⟩

/-- C8 counterexample: the claim says the original key is removed even when the
rewrite is empty; for attrs with the single key "" (whose rewrite under
replacement string "new:" is empty) the stage leaves the attributes unchanged
and the key is still present with its value. -/
theorem attr_rewrite_empty_key_cex :
    change_attr_prefix_stage [("", "v")] "new:" = [("", "v")] ∧
    List.lookup "" (change_attr_prefix_stage [("", "v")] "new:") = some "v" :=
  ⟨by decide, by decide⟩

/-- C9 (code bug): a dict passed as `coords` to `unstack_fill_nan` is never
used as the per-point coordinate source — the isinstance(list/tuple) test
sends it to the auto-detection branch — and the later
`out.reindex(**coords.coords)` line raises AttributeError because a plain
Python dict has no `coords` attribute, contradicting the docstring's
documented dict support. -/
theorem unstack_dict_coords_bug (autoCoords : List (String × List Int))
    (byName : String → List Int) (openDs : String → List (String × List Int))
    (m : List (String × List Int)) :
    coordSource autoCoords byName (.dictArg m) = autoCoords ∧
    reindexTargets openDs (.dictArg m) = .attributeError "dict" "coords" :=
  ⟨rfl, rfl⟩

/-- C10: `clean_up` with every optional configuration argument absent skips
every pipeline stage and returns the input dataset unchanged — values and
attributes, global and per-variable, untouched. -/
theorem clean_up_all_none_identity {V : Type} (ext : CleanupExternals V)
    (ds : CUDataset V) :
    clean_up ext ds none none none none none none none none none none none
      none = ds := rfl
